import Mathlib

/-!
Verification development for the Guitar-Intervals fretboard application.

The JavaScript source is shallowly embedded: JS numbers that are used as
integers become `Int`/`Nat`, the JS truncating remainder `%` becomes
`Int.tmod`, `Array.prototype.indexOf` (which returns `-1` when the element
is absent) becomes an `Int`-valued search, and an out-of-range array read
(which yields `undefined` in JS) becomes `none : Option String`.
Floating-point audio frequencies are modelled over the reals.
-/

namespace GuitarIntervals

/-- The twelve pitch-class names, in the order of the source's `NOTE_ORDER`. -/
def NOTE_ORDER : List String :=
  ["C", "C#", "D", "D#", "E", "F"] ++ ["F#", "G", "G#", "A", "A#", "B"]

/-- Interval names by semitone distance, the source's `INTERVAL_BY_STEPS`. -/
def INTERVAL_BY_STEPS : List String :=
  ["U", "m2", "M2", "m3", "M3", "P4", "TT", "P5", "m6", "M6", "m7", "M7"]

/-- Open-string note names low-to-high, the source's `STRINGS_LOW_TO_HIGH`. -/
def STRINGS_LOW_TO_HIGH : List String := ["E", "A", "D", "G", "B", "E"]

/-- The rendered string rows, top to bottom: `[...STRINGS_LOW_TO_HIGH].reverse()`.
Row index 0 is the high E string, row index 5 the low E string. -/
def stringsTopToBottom : List String := STRINGS_LOW_TO_HIGH.reverse

/-- The source's `FRET_COUNT`: frets run 0..22. -/
def FRET_COUNT : Nat := 22

/-- JS `Array.prototype.indexOf` on an array of strings: the index of the
first occurrence, `-1` when absent. -/
def jsIndexOfAux (x : String) : List String → Int → Int
  | [], _ => -1
  | y :: ys, i => if y = x then i else jsIndexOfAux x ys (i + 1)

/-- JS `xs.indexOf(x)` (strings). -/
def jsIndexOf (xs : List String) (x : String) : Int :=
  jsIndexOfAux x xs 0

/-- JS `xs.indexOf(x)` where `x` may be `undefined` (`indexOf` of a value not
in the array, in particular `undefined`, is `-1`). -/
def jsIndexOfOpt (xs : List String) (x : Option String) : Int :=
  match x with
  | none => -1
  | some s => jsIndexOf xs s

/-- JS array read `xs[i]`: `undefined` (here `none`) when `i` is negative or
past the end. -/
def jsGet (xs : List String) (i : Int) : Option String :=
  if i < 0 then none else xs[i.toNat]?

/-- The source's `noteUp(baseNote, semitoneSteps)`:
`NOTE_ORDER[(NOTE_ORDER.indexOf(baseNote) + semitoneSteps) % 12]`.
JS `%` is the truncating remainder (`Int.tmod`), and the array read of a
negative index is `undefined`; the base note may itself be `undefined`. -/
def noteUp (baseNote : Option String) (semitoneSteps : Int) : Option String :=
  jsGet NOTE_ORDER (Int.tmod (jsIndexOfOpt NOTE_ORDER baseNote + semitoneSteps) 12)

/-- The source's `getIntervalSteps(noteLetter, rootLetter)`:
`(NOTE_ORDER.indexOf(noteLetter) - NOTE_ORDER.indexOf(rootLetter) + 12) % 12`. -/
def getIntervalSteps (noteLetter rootLetter : String) : Int :=
  Int.tmod (jsIndexOf NOTE_ORDER noteLetter - jsIndexOf NOTE_ORDER rootLetter + 12) 12

/-- Note name at a board cell: the rendered button's `data-note`, computed by
`buildBoard` as `noteUp(openNote, fret)` with `openNote` the row's entry of
`stringsTopToBottom`. -/
def noteAtCell (stringIndex fret : Int) : Option String :=
  noteUp (jsGet stringsTopToBottom stringIndex) fret

/-- One entry of the list built by `getTriadNotes`:
`{ stringIndex, fret, interval }`. -/
structure TriadNote where
  stringIndex : Int
  fret : Int
  interval : String
deriving DecidableEq, Repr

/-- The `add(s, f, i)` helper inside `getTriadNotes`: push the note when
`f >= 0 && f <= 22`. -/
def addNote (notes : List TriadNote) (s f : Int) (i : String) : List TriadNote :=
  if 0 ≤ f ∧ f ≤ 22 then notes ++ [⟨s, f, i⟩] else notes

/-- The source's `getTriadNotes(rootStringIndex, rootFret, isMajor)`:
starts from the clicked root (interval label `'R'`), then switches on the
root string index (5 = low E .. 0 = high E) adding the third (label `'3'`
or `'b3'`) and fifth (label `'5'`) per the hand-written shape tables, with a
low-fret fallback branch per string; finally keeps only frets in `[0,22]`. -/
def getTriadNotes (rootStringIndex rootFret : Int) (isMajor : Bool) : List TriadNote :=
  let t := if isMajor then "3" else "b3"
  let notes : List TriadNote := [⟨rootStringIndex, rootFret, "R"⟩]
  let notes :=
    if rootStringIndex = 5 then
      -- Root on Low E
      if rootFret ≥ 3 then
        addNote (addNote notes 4 (rootFret - (if isMajor then 1 else 2)) t) 3 (rootFret - 3) "5"
      else
        addNote (addNote notes 4 (rootFret + 2) "5") 2 (rootFret + (if isMajor then 1 else 0)) t
    else if rootStringIndex = 4 then
      -- Root on A
      if rootFret ≥ 3 then
        addNote (addNote notes 3 (rootFret - (if isMajor then 1 else 2)) t) 2 (rootFret - 3) "5"
      else
        addNote (addNote notes 3 (rootFret + 2) "5") 1 (rootFret + (if isMajor then 2 else 1)) t
    else if rootStringIndex = 3 then
      -- Root on D
      if rootFret ≥ 2 then
        addNote (addNote notes 2 (rootFret - (if isMajor then 1 else 2)) t) 1 (rootFret - 2) "5"
      else
        addNote (addNote notes 2 (rootFret + 2) "5") 0 (rootFret + (if isMajor then 2 else 1)) t
    else if rootStringIndex = 2 then
      -- Root on G
      if rootFret ≥ 2 then
        addNote (addNote notes 1 (rootFret - (if isMajor then 0 else 1)) t) 0 (rootFret - 2) "5"
      else
        addNote (addNote notes 3 rootFret "5") 1 (rootFret - (if isMajor then 0 else 1)) t
    else if rootStringIndex = 1 then
      -- Root on B
      if rootFret ≥ 2 then
        addNote (addNote notes 2 (rootFret - 1) "5") 0 (rootFret - (if isMajor then 1 else 2)) t
      else
        addNote (addNote notes 3 (rootFret + 1) t) 0 (rootFret + 2) "5"
    else if rootStringIndex = 0 then
      -- Root on High E
      addNote (addNote notes 1 rootFret "5") 2 (rootFret + (if isMajor then 1 else 0)) t
    else
      notes
  notes.filter (fun n => 0 ≤ n.fret ∧ n.fret ≤ 22)

/-- Semitone distances (as computed by the UI's `getIntervalSteps`) of the
notes returned by `getTriadNotes`, relative to the clicked root cell. -/
def triadSteps (s f : Int) (q : Bool) : List Int :=
  (getTriadNotes s f q).map fun n =>
    getIntervalSteps ((noteAtCell n.stringIndex n.fret).getD "")
      ((noteAtCell s f).getD "")

/-- The boundary inputs on which `getTriadNotes` fails to be a correct
3-note triad: G-string root at fret 0 with minor quality and high-E-string
root at fret 22 with major quality drop a note whose computed fret falls
outside `[0,22]`, and B-string roots at frets 0 and 1 with minor quality
place the `'b3'`-labelled note a major third above the root. -/
def triadEdgeCase (s f : Int) (q : Bool) : Prop :=
  (s = 2 ∧ f = 0 ∧ q = false) ∨ (s = 0 ∧ f = 22 ∧ q = true) ∨
  (s = 1 ∧ f ≤ 1 ∧ q = false)

instance (s f : Int) (q : Bool) : Decidable (triadEdgeCase s f q) := by
  unfold triadEdgeCase; infer_instance

/-- A correct triad shape at root `(s, f)` with quality `q`: exactly 3
positions, pairwise distinct strings, and the semitone distances from the
root are exactly `{0, t, 7}` (`t = 4` major, `t = 3` minor), each once. -/
def triadShapeOk (s f : Int) (q : Bool) : Prop :=
  (getTriadNotes s f q).length = 3 ∧
  ((getTriadNotes s f q).map (fun n => n.stringIndex)).Nodup ∧
  (triadSteps s f q).Perm [0, if q then 4 else 3, 7]

instance (s f : Int) (q : Bool) : Decidable (triadShapeOk s f q) := by
  unfold triadShapeOk; infer_instance

/-- The low-fret fallback branches of `getTriadNotes` that move the third
to a non-adjacent string: root on string 5 or 4 below fret 3, root on
string 3 or 1 below fret 2.  (The string-2 fallback keeps strings 1,2,3
adjacent, and string 0 has a single branch.) -/
def fallbackLowFret (s f : Int) : Prop :=
  (s = 5 ∧ f < 3) ∨ (s = 4 ∧ f < 3) ∨ (s = 3 ∧ f < 2) ∨ (s = 1 ∧ f < 2)

instance (s f : Int) : Decidable (fallbackLowFret s f) := by
  unfold fallbackLowFret; infer_instance

/-- The string indices of a note list form three consecutive integers. -/
def consecutiveStrings (l : List Int) : Prop :=
  ∃ a : Fin 6, l.Perm [((a : Nat) : Int), ((a : Nat) : Int) + 1, ((a : Nat) : Int) + 2]

instance (l : List Int) : Decidable (consecutiveStrings l) := by
  unfold consecutiveStrings; infer_instance

/-- Ergonomics of the shape at root `(s, f)` with quality `q`: every final
fret lies in `[0,22]` and within `[-3,+2]` of the root fret, strings are
pairwise distinct and include the root string, and the string set is
consecutive exactly outside the low-fret fallback branches (and away from
the degenerate 2-note boundary inputs). -/
def triadErgonomicsOk (s f : Int) (q : Bool) : Prop :=
  (∀ n ∈ getTriadNotes s f q,
      0 ≤ n.fret ∧ n.fret ≤ 22 ∧ -3 ≤ n.fret - f ∧ n.fret - f ≤ 2) ∧
  ((getTriadNotes s f q).map (fun n => n.stringIndex)).Nodup ∧
  s ∈ (getTriadNotes s f q).map (fun n => n.stringIndex) ∧
  (¬ fallbackLowFret s f ∧ ¬ triadEdgeCase s f q →
    consecutiveStrings ((getTriadNotes s f q).map (fun n => n.stringIndex))) ∧
  (fallbackLowFret s f →
    ¬ consecutiveStrings ((getTriadNotes s f q).map (fun n => n.stringIndex)))

instance (s f : Int) (q : Bool) : Decidable (triadErgonomicsOk s f q) := by
  unfold triadErgonomicsOk; infer_instance

/-- The `showMajorTriad` per-cell labelling: interval steps relative to the
root; a label only when the steps are in the major triad set `{0, 4, 7}`,
`'R'` for 0, `'3'` for 4, `'5'` for 7. -/
def triadLabelMajor (noteLetter rootLetter : String) : Option String :=
  let steps := getIntervalSteps noteLetter rootLetter
  if steps = 0 ∨ steps = 4 ∨ steps = 7 then
    some (if steps = 0 then "R" else if steps = 4 then "3" else "5")
  else
    none

/-- Label that `showMajorTriad` computes for the board cell at
`(stringIndex, fret)` (its button's `data-note`), given the root letter. -/
def cellTriadLabelMajor (rootLetter : String) (s f : Int) : Option String :=
  match noteAtCell s f with
  | some nm => triadLabelMajor nm rootLetter
  | none => none

/-- Frequency of one triad note in `playTriad`:
`rootFrequency * Math.pow(2, semitones / 12)`. -/
noncomputable def triadNoteFreq (rootFrequency semitones : ℝ) : ℝ :=
  rootFrequency * (2 : ℝ) ^ (semitones / 12)

/-- The (frequency, delay) pairs scheduled by `GuitarAudio.playTriad`:
for each entry of `intervals` at index `index`,
frequency `rootFrequency * 2^(semitones/12)` and delay `index * 0.08`. -/
noncomputable def playTriad (rootFrequency : ℝ) (intervals : List ℝ) : List (ℝ × ℝ) :=
  intervals.enum.map fun p => (triadNoteFreq rootFrequency p.2, (p.1 : ℝ) * 0.08)

/-- The sound-plan property claimed for a 3-interval list `[0, t, 7]`:
exactly the three pairs in list order, delays `[0, 0.08, 0.16]` strictly
ascending with the first delay 0. -/
noncomputable def playTriadOk (f t : ℝ) : Prop :=
  playTriad f [0, t, 7] =
    [(f * (2 : ℝ) ^ ((0 : ℝ) / 12), 0),
     (f * (2 : ℝ) ^ (t / 12), 0.08),
     (f * (2 : ℝ) ^ ((7 : ℝ) / 12), 0.16)] ∧
  (playTriad f [0, t, 7]).map Prod.snd = [0, 0.08, 0.16] ∧
  ((playTriad f [0, t, 7]).map Prod.snd).Sorted (· < ·) ∧
  ((playTriad f [0, t, 7]).map Prod.snd).head? = some 0

/-- What one rendered fretboard cell displays: the two text spans, the
`root`/`sharp` CSS classes, and the `ghost` class of each span. -/
structure CellDisplay where
  intervalText : Option String
  letterText : Option String
  isRoot : Bool
  isSharp : Bool
  intervalGhost : Bool
  letterGhost : Bool
deriving DecidableEq

/-- The effect of `showIntervals` on one cell's display: every displayed
attribute is overwritten from the cell's note letter and the root alone;
the previous display contents are never read. -/
def showIntervalsCell (rootLetter noteLetter : String) (_prev : CellDisplay) : CellDisplay :=
  { intervalText := jsGet INTERVAL_BY_STEPS (getIntervalSteps noteLetter rootLetter)
    letterText := some noteLetter
    isRoot := getIntervalSteps noteLetter rootLetter == 0
    isSharp := noteLetter.contains '#'
    intervalGhost := false
    letterGhost := false }

/-- Display state of the whole 6 × 23 board. -/
def Board : Type := Fin 6 → Fin 23 → CellDisplay

/-- The whole-board effect of `showIntervals(rootLetter)`: update every
cell from the root letter and the cell's own note. -/
def showIntervalsBoard (rootLetter : String) (board : Board) : Board :=
  fun s f =>
    showIntervalsCell rootLetter
      ((noteAtCell ((s : Nat) : Int) ((f : Nat) : Int)).getD "") (board s f)

/-- Events the active-root state reacts to: a click on a note button
carrying a non-empty `data-note`, a click that reaches no note button (or
one with an empty note, which the handler ignores), and an Escape key. -/
inductive UiEvent where
  | click (note : String)
  | clickEmptyNote
  | escape
deriving DecidableEq

/-- The board click / Escape handlers' effect on `activeRoot`: a click on
the current root clears it, a click on any other note selects that note,
clicks without a note are ignored, and Escape always clears. -/
def clickStep (activeRoot : Option String) (e : UiEvent) : Option String :=
  match e with
  | .click n => if activeRoot = some n then none else some n
  | .clickEmptyNote => activeRoot
  | .escape => none

/-- Claim C5: for the root on the low-E string (index 5) at fret 3 — pitch class
G — with major quality, the computed shape is exactly the root G (label
`'R'`) on string 5, B (label `'3'`) on the A string (index 4), and D (label
`'5'`) on the D string (index 3), all frets within `[0,22]`. -/
theorem gMajor_lowE_shape :
    getTriadNotes 5 3 true = [⟨5, 3, "R"⟩, ⟨4, 2, "3"⟩, ⟨3, 0, "5"⟩] ∧
    noteAtCell 5 3 = some "G" ∧
    noteAtCell 4 2 = some "B" ∧
    noteAtCell 3 0 = some "D" ∧
    jsGet stringsTopToBottom 4 = some "A" ∧
    jsGet stringsTopToBottom 3 = some "D" ∧
    (∀ n ∈ getTriadNotes 5 3 true, 0 ≤ n.fret ∧ n.fret ≤ 22) := by
  decide

/-- Claim C7: with root pitch class C and major quality, the per-cell labelling
marks exactly the C cells `'R'`, the E cells (4 semitones above C) `'3'`,
the G cells (7 semitones above C) `'5'`, and labels no other cell. -/
theorem majorTriad_labels_rootC :
    ∀ (s : Fin 6) (f : Fin 23),
      (cellTriadLabelMajor "C" ((s : Nat) : Int) ((f : Nat) : Int) = some "R" ↔
        noteAtCell ((s : Nat) : Int) ((f : Nat) : Int) = some "C") ∧
      (cellTriadLabelMajor "C" ((s : Nat) : Int) ((f : Nat) : Int) = some "3" ↔
        noteAtCell ((s : Nat) : Int) ((f : Nat) : Int) = some "E") ∧
      (cellTriadLabelMajor "C" ((s : Nat) : Int) ((f : Nat) : Int) = some "5" ↔
        noteAtCell ((s : Nat) : Int) ((f : Nat) : Int) = some "G") ∧
      (cellTriadLabelMajor "C" ((s : Nat) : Int) ((f : Nat) : Int) = none ↔
        (noteAtCell ((s : Nat) : Int) ((f : Nat) : Int) ≠ some "C" ∧
         noteAtCell ((s : Nat) : Int) ((f : Nat) : Int) ≠ some "E" ∧
         noteAtCell ((s : Nat) : Int) ((f : Nat) : Int) ≠ some "G")) := by
  decide

/-- Claim C8: the triad computation and the interval-label display are
deterministic and stateless — the board produced by `showIntervals`
depends only on the root (not on the previous display state), applying it
twice equals applying it once, and `getTriadNotes` yields the same list on
every evaluation of the same input. -/
theorem display_deterministic_stateless :
    (∀ (r : String) (b₁ b₂ : Board), showIntervalsBoard r b₁ = showIntervalsBoard r b₂) ∧
    (∀ (r : String) (b : Board),
      showIntervalsBoard r (showIntervalsBoard r b) = showIntervalsBoard r b) ∧
    (∀ (s f : Int) (q : Bool), getTriadNotes s f q = getTriadNotes s f q) :=
  ⟨fun _ _ _ => rfl, fun _ _ => rfl, fun _ _ _ => rfl⟩

/-- Claim C9: for every root string in `[0,5]`, root fret in `[0,22]` and
quality, every position returned by `getTriadNotes` has fret in `[0,22]`,
and the first returned element is the clicked root position itself with
interval label `'R'`. -/
theorem triad_frets_bounded_root_first :
    ∀ (s : Fin 6) (f : Fin 23) (q : Bool),
      (∀ n ∈ getTriadNotes ((s : Nat) : Int) ((f : Nat) : Int) q,
          0 ≤ n.fret ∧ n.fret ≤ 22) ∧
      (getTriadNotes ((s : Nat) : Int) ((f : Nat) : Int) q).head? =
        some ⟨((s : Nat) : Int), ((f : Nat) : Int), "R"⟩ := by
  decide

/-- Claim C10: the active-root state is a toggle machine — clicking the note
equal to the current root clears the state, clicking any other note
selects that note, Escape always clears, and any state reached by an event
is either cleared or the note of the click that produced it (clicks
without a note leave the state unchanged). -/
theorem activeRoot_toggle_machine :
    (∀ (st : Option String) (n : String),
      st = some n → clickStep st (UiEvent.click n) = none) ∧
    (∀ (st : Option String) (n : String),
      st ≠ some n → clickStep st (UiEvent.click n) = some n) ∧
    (∀ st : Option String, clickStep st UiEvent.escape = none) ∧
    (∀ st : Option String, clickStep st UiEvent.clickEmptyNote = st) ∧
    (∀ (st : Option String) (e : UiEvent) (n : String),
      clickStep st e = some n →
        e = UiEvent.click n ∨ (e = UiEvent.clickEmptyNote ∧ st = some n)) := by
  refine ⟨?_, ?_, ?_, ?_, ?_⟩
  · intro st n h; simp [clickStep, h]
  · intro st n h; simp [clickStep, h]
  · intro st; rfl
  · intro st; rfl
  · intro st e n h
    cases e with
    | click m =>
        left
        simp only [clickStep] at h
        by_cases hm : st = some m
        · simp [hm] at h
        · simp [hm] at h; simp [h]
    | clickEmptyNote => right; exact ⟨rfl, h⟩
    | escape => simp [clickStep] at h

/-- Claim C1 counterexample: at root string 2 (the G string), fret 0, minor
quality, `getTriadNotes` returns only 2 positions — the `'b3'` note's
computed fret `0 - 1` fails the `add` guard — refuting "exactly 3
positions" as stated. -/
theorem triadShape_two_note_counterexample :
    getTriadNotes 2 0 false = [⟨2, 0, "R"⟩, ⟨3, 0, "5"⟩] ∧
    (getTriadNotes 2 0 false).length = 2 := by
  decide

/-- Claim C1 (amended): outside the four boundary inputs of `triadEdgeCase`, the
shape computed by `getTriadNotes` has exactly 3 positions on pairwise
distinct strings whose pitch classes are exactly the root's
`{0, t, 7}` offsets (`t = 4` major, `t = 3` minor), each offset once. -/
theorem triadShape_correct :
    ∀ (s : Fin 6) (f : Fin 23) (q : Bool),
      ¬ triadEdgeCase ((s : Nat) : Int) ((f : Nat) : Int) q →
        triadShapeOk ((s : Nat) : Int) ((f : Nat) : Int) q := by
  decide

/-- Claim C1 witness: the amended theorem applied at root string 5, fret 3,
major quality. -/
theorem triadShape_correct_witness :
    ¬ triadEdgeCase 5 3 true ∧ triadShapeOk 5 3 true :=
  ⟨by decide, triadShape_correct 5 3 true (by decide)⟩

/-- Claim C4 counterexample: at root string 5, fret 3, major quality the fifth
sits at fret 0, a fret offset of `-3` from the root, refuting "every
note's fret offset from the root fret is ... non-negative". -/
theorem triad_negative_offset_counterexample :
    ∃ n ∈ getTriadNotes 5 3 true, n.fret - 3 < 0 := by
  decide

/-- Claim C4 (amended): for every root string, root fret in `[0,22]` and
quality, all returned frets are in `[0,22]` and within `[-3,+2]` of the
root fret (small but possibly negative); the strings are pairwise distinct
and contain the root string; and the string set consists of consecutive
integers exactly when the input is outside the low-fret fallback branches
(and outside the degenerate boundary inputs), the fallback branches
skipping one string. -/
theorem triad_ergonomics :
    ∀ (s : Fin 6) (f : Fin 23) (q : Bool),
      triadErgonomicsOk ((s : Nat) : Int) ((f : Nat) : Int) q := by
  decide

/-- JS truncating remainder `% 12` of a natural number agrees with
`Nat.mod`. -/
theorem tmod_twelve_natCast (a : Nat) :
    Int.tmod ((a : Nat) : Int) 12 = ((a % 12 : Nat) : Int) := rfl

/-- A JS array read at a natural index is the ordinary list lookup. -/
theorem jsGet_natCast (xs : List String) (k : Nat) :
    jsGet xs ((k : Nat) : Int) = xs[k]? := by
  simp [jsGet]

/-- Looking up the `p`-th note name with `NOTE_ORDER.indexOf` gives `p`. -/
theorem jsIndexOf_noteOrder :
    ∀ p : Fin 12, jsIndexOfOpt NOTE_ORDER NOTE_ORDER[(p : Nat)]? = ((p : Nat) : Int) := by
  decide

/-- Stepping `noteUp` by a non-negative count lands on the table entry at
the proper-modulo index. -/
theorem noteUp_natCast (p : Fin 12) (m : Nat) :
    noteUp NOTE_ORDER[(p : Nat)]? ((m : Nat) : Int) = NOTE_ORDER[((p : Nat) + m) % 12]? := by
  unfold noteUp
  rw [jsIndexOf_noteOrder p,
    show ((p : Nat) : Int) + ((m : Nat) : Int) = (((p : Nat) + m : Nat) : Int) by push_cast; ring,
    tmod_twelve_natCast, jsGet_natCast]

/-- Claim C2 counterexample: `noteUp('C', -1)` is `undefined` (the JS truncating
`%` yields index `-1` and the array read is out of range), while proper
modulo gives index 11, i.e. `'B'`; the invariant
`up(p, n) == up(p, n mod 12)` fails at `p = 'C'`, `n = -1`. -/
theorem noteUp_negative_counterexample :
    noteUp (some "C") (-1) = none ∧
    Int.emod (0 + -1) 12 = 11 ∧
    jsGet NOTE_ORDER 11 = some "B" ∧
    noteUp (some "C") (Int.emod (-1) 12) = some "B" ∧
    noteUp (some "C") (-1) ≠ noteUp (some "C") (Int.emod (-1) 12) := by
  decide

/-- Claim C2 (amended): for every pitch class `p` and every NON-NEGATIVE step
count `n`, `noteUp` returns the pitch class at index `(p + n) mod 12`, and
`up(p, n) == up(p, n mod 12)`; for negative steps the truncating remainder
makes the result `undefined` instead (see the counterexample). -/
theorem noteUp_nonneg (p : Fin 12) (n : Nat) :
    noteUp NOTE_ORDER[(p : Nat)]? ((n : Nat) : Int) = NOTE_ORDER[((p : Nat) + n) % 12]? ∧
    noteUp NOTE_ORDER[(p : Nat)]? ((n : Nat) : Int)
      = noteUp NOTE_ORDER[(p : Nat)]? ((n % 12 : Nat) : Int) := by
  refine ⟨noteUp_natCast p n, ?_⟩
  rw [noteUp_natCast p n, noteUp_natCast p (n % 12)]
  have h : ((p : Nat) + n) % 12 = ((p : Nat) + n % 12) % 12 := by omega
  rw [h]

/-- Claim C3 counterexample: `up(up('B', 2), -2)` is `undefined`, not `'B'` —
the inner step wraps past the end of the table, so the outer negative step
drives the truncating remainder below zero. -/
theorem noteUp_roundtrip_counterexample :
    noteUp (noteUp (some "B") 2) (-2) = none ∧
    noteUp (noteUp (some "B") 2) (-2) ≠ some "B" := by
  decide

/-- Claim C3 (amended): the round trip `up(up(p, n), -n) == p` holds whenever
`index(p) + n` stays inside the table, i.e. `0 ≤ index(p) + n ≤ 11`;
outside that range the truncating remainder can produce `undefined`
(see the counterexample). -/
theorem noteUp_roundtrip (p : Fin 12) (n : Int)
    (h0 : 0 ≤ ((p : Nat) : Int) + n) (h1 : ((p : Nat) : Int) + n ≤ 11) :
    noteUp (noteUp NOTE_ORDER[(p : Nat)]? n) (-n) = NOTE_ORDER[(p : Nat)]? := by
  have hp : (p : Nat) < 12 := p.isLt
  have hn1 : -11 ≤ n := by omega
  have hn2 : n ≤ 11 := by omega
  revert h0 h1
  interval_cases n <;> (revert p; decide)

/-- Claim C3 witness: the amended round trip at `p = 'E'` (index 4), `n = 3`. -/
theorem noteUp_roundtrip_witness :
    (0 : Int) ≤ (((4 : Fin 12) : Nat) : Int) + 3 ∧
    noteUp (noteUp NOTE_ORDER[((4 : Fin 12) : Nat)]? 3) (-3) = NOTE_ORDER[((4 : Fin 12) : Nat)]? :=
  ⟨by decide, noteUp_roundtrip 4 3 (by decide) (by decide)⟩

/-- Claim C6: for every positive root frequency `f` and interval list `[0, t, 7]`,
`playTriad` schedules exactly 3 (frequency, delay) pairs in list order, the
`k`-th with frequency `f * 2^(interval/12)` and delay `k * 0.08`, so the
delays are exactly `[0, 0.08, 0.16]`, strictly ascending, first delay 0. -/
theorem playTriad_plan (f t : ℝ) (_hf : 0 < f) : playTriadOk f t := by
  have hplan : playTriad f [0, t, 7] =
      [(f * (2 : ℝ) ^ ((0 : ℝ) / 12), 0),
       (f * (2 : ℝ) ^ (t / 12), 0.08),
       (f * (2 : ℝ) ^ ((7 : ℝ) / 12), 0.16)] := by
    simp [playTriad, List.enum, List.enumFrom, triadNoteFreq]
    norm_num
  refine ⟨hplan, ?_, ?_, ?_⟩
  · rw [hplan]; simp
  · rw [hplan]
    simp [List.Sorted, List.sorted_cons]
    norm_num
  · rw [hplan]; simp

/-- Claim C6 witness: the sound plan property at root frequency 440 Hz and the
major-triad interval list `[0, 4, 7]`. -/
theorem playTriad_plan_witness : (0 : ℝ) < 440 ∧ playTriadOk 440 4 :=
  ⟨by norm_num, playTriad_plan 440 4 (by norm_num)⟩

end GuitarIntervals
